import Mathlib

/-!
Verification of the floor-manager core of the `floor` repository.

The Python source is shallowly embedded: each mutable component
(`FloorControl`, `FloorQueue`, `EnvelopeRouter`, `FloorManager`,
`ManifestStorage`) becomes a Lean structure, and each method becomes a
pure function from the old state (plus the current instant `now`, standing
for `datetime.now(UTC)`) to its return value and the new state.  Python
dicts keyed by strings become insertion-ordered association lists; time is
modelled by `Nat` instants.
-/

namespace Floor

/-- Python dict read: `dictGet m k` is Python `m[k]` / `m.get(k)` on a string-keyed dict
modelled as an association list (keys unique, insertion order kept). -/
def dictGet {α : Type} (m : List (String × α)) (k : String) : Option α :=
  match m with
  | [] => none
  | (k', v) :: rest => if k' = k then some v else dictGet rest k

/-- Python dict write: `dictSet m k v` is Python `m[k] = v`: replace in place, else append. -/
def dictSet {α : Type} (m : List (String × α)) (k : String) (v : α) :
    List (String × α) :=
  match m with
  | [] => [(k, v)]
  | (k', v') :: rest =>
      if k' = k then (k, v) :: rest else (k', v') :: dictSet rest k v

/-- Python dict delete: `dictErase m k` is Python `del m[k]`.  A dict never holds two bindings
for one key, so deleting the key is removing every binding for it. -/
def dictErase {α : Type} (m : List (String × α)) (k : String) :
    List (String × α) :=
  m.filter (fun kv => kv.1 ≠ k)

/-- A pending floor request: the dict
`{"speakerUri": ..., "priority": ..., "timestamp": datetime.now(UTC)}`
built in `FloorControl.request_floor` (floor_control.py). -/
structure FloorRequest where
  speakerUri : String
  priority : Int
  timestamp : Nat
deriving Repr, DecidableEq

/-- A floor holder: the dict `{"speakerUri": ..., "granted_at": ...}`
built in `FloorControl._grant_floor` (floor_control.py). -/
structure Holder where
  speakerUri : String
  granted_at : Nat
deriving Repr, DecidableEq

/-- The sort key comparison used by
`self._floor_requests[cid].sort(key=lambda x: (-x["priority"], x["timestamp"]))`:
`a` may precede `b` iff `(-a.priority, a.timestamp) ≤ (-b.priority, b.timestamp)`
lexicographically.  Python's `list.sort` is a stable sort by this key, as is
`List.mergeSort` by this comparison. -/
def reqKeyLE (a b : FloorRequest) : Bool :=
  decide (-a.priority < -b.priority) ||
    (decide (-a.priority = -b.priority) && decide (a.timestamp ≤ b.timestamp))

/-- Stable insertion of `a` into a list sorted by `reqKeyLE`: `a` goes in
front of the first element whose key is ≥ its own.  In `sortRequests` every
element of the list being inserted into came later in the original list
than `a`, so placing `a` before equal keys is the stable order. -/
def insertSorted (a : FloorRequest) : List FloorRequest → List FloorRequest
  | [] => [a]
  | b :: l => if reqKeyLE a b then a :: b :: l else b :: insertSorted a l

/-- Embedding of `queue.sort(key=lambda x: (-x["priority"], x["timestamp"]))`.
Python's `list.sort` is a stable sort by the key; a stable sort by a total
preorder is unique, so it is embedded as a structurally recursive stable
insertion sort (which the kernel can evaluate).
`sortRequests_eq_mergeSort` below proves it equal to the stable
`List.mergeSort` by the same comparison. -/
def sortRequests : List FloorRequest → List FloorRequest
  | [] => []
  | a :: l => insertSorted a (sortRequests l)

/-- Per-conversation metadata held in `self._conversation_metadata`:
`assignedFloorRoles` (never written after initialisation, always `{}`) and
the optional `floorGranted` list (absent key = `none`). -/
structure ConvMetadata where
  assignedFloorRoles : List (String × List String) := []
  floorGranted : Option (List String) := none
deriving Repr, DecidableEq

/-- The mutable state of a `FloorControl` instance (floor_control.py):
`_floor_holders`, `_floor_requests`, `_conversation_metadata`, and the
configured `_max_hold_time` (`settings.FLOOR_MAX_HOLD_TIME`, default 300 s).
`_floor_timeout` is read from settings but never used by any method, and is
omitted. -/
structure FloorControl where
  floor_holders : List (String × Holder) := []
  floor_requests : List (String × List FloorRequest) := []
  conversation_metadata : List (String × ConvMetadata) := []
  max_hold_time : Nat := 300
deriving Repr, DecidableEq

/-- The `if conversation_id not in self._conversation_metadata: ... = {"assignedFloorRoles": {}}`
initialisation at the top of `request_floor` and inside `_grant_floor`. -/
def initMetadata (st : FloorControl) (cid : String) : FloorControl :=
  match dictGet st.conversation_metadata cid with
  | some _ => st
  | none =>
      { st with conversation_metadata :=
          dictSet st.conversation_metadata cid ({} : ConvMetadata) }

/-- Embeds `FloorControl._grant_floor`: record the holder with `granted_at = now`
and set `conversation_metadata[cid]["floorGranted"] = [speakerUri]`. -/
def grantFloor (st : FloorControl) (cid speakerUri : String) (now : Nat) :
    FloorControl :=
  let st1 := { st with
    floor_holders := dictSet st.floor_holders cid ⟨speakerUri, now⟩ }
  let st2 := initMetadata st1 cid
  let md := (dictGet st2.conversation_metadata cid).getD ({} : ConvMetadata)
  let md' := { md with floorGranted := some [speakerUri] }
  { st2 with conversation_metadata := dictSet st2.conversation_metadata cid md' }

/-- Embeds `FloorControl._process_queue`: pop the queue head (if any), grant it the
floor, and drop the queue's key once the queue is empty. -/
def processQueue (st : FloorControl) (cid : String) (now : Nat) :
    FloorControl :=
  match dictGet st.floor_requests cid with
  | none => st
  | some [] => st
  | some (next :: rest) =>
      let st1 := { st with
        floor_requests := dictSet st.floor_requests cid rest }
      let st2 := grantFloor st1 cid next.speakerUri now
      if rest.isEmpty then
        { st2 with floor_requests := dictErase st2.floor_requests cid }
      else st2

/-- Embeds `FloorControl.request_floor`: grant immediately when the conversation has
no holder; otherwise append `{speakerUri, priority, now}` to the queue and
re-sort it by `(-priority, timestamp)`.  Returns the `granted` boolean with
the new state. -/
def request_floor (st : FloorControl) (cid speakerUri : String)
    (priority : Int) (now : Nat) : Bool × FloorControl :=
  let st0 := initMetadata st cid
  match dictGet st0.floor_holders cid with
  | none => (true, grantFloor st0 cid speakerUri now)
  | some _ =>
      let q := (dictGet st0.floor_requests cid).getD []
      let q' := sortRequests (q ++ [⟨speakerUri, priority, now⟩])
      (false, { st0 with floor_requests := dictSet st0.floor_requests cid q' })

/-- The `"floorGranted"` key removal
(`self._conversation_metadata[cid].pop("floorGranted", None)`) shared by
`release_floor` and `_revoke_floor`. -/
def clearFloorGranted (st : FloorControl) (cid : String) : FloorControl :=
  match dictGet st.conversation_metadata cid with
  | none => st
  | some md =>
      let md' := { md with floorGranted := none }
      { st with conversation_metadata := dictSet st.conversation_metadata cid md' }

/-- Embeds `FloorControl.release_floor` (the OFP `yieldFloor`): fail unless the
caller is the current holder; otherwise clear the holder and promote the
queue head via `_process_queue`. -/
def release_floor (st : FloorControl) (cid speakerUri : String) (now : Nat) :
    Bool × FloorControl :=
  match dictGet st.floor_holders cid with
  | none => (false, st)
  | some holder =>
      if holder.speakerUri ≠ speakerUri then (false, st)
      else
        let st1 := { st with floor_holders := dictErase st.floor_holders cid }
        let st2 := clearFloorGranted st1 cid
        (true, processQueue st2 cid now)

/-- Embeds `FloorControl._revoke_floor`: clear the holder (if any) and promote the
queue head.  The `reason` is only logged by the source. -/
def revokeFloor (st : FloorControl) (cid : String) (reason : String)
    (now : Nat) : FloorControl :=
  match dictGet st.floor_holders cid with
  | none => st
  | some _ =>
      let st1 := { st with floor_holders := dictErase st.floor_holders cid }
      let st2 := clearFloorGranted st1 cid
      processQueue st2 cid now

/-- Embeds `FloorControl.get_floor_holder`: report the holder, enforcing the lazy
hold timeout — when `now - granted_at > max_hold_time` the floor is revoked
with reason `"@timeout"` and the call returns `None`. -/
def get_floor_holder (st : FloorControl) (cid : String) (now : Nat) :
    Option String × FloorControl :=
  match dictGet st.floor_holders cid with
  | none => (none, st)
  | some holder =>
      if now - holder.granted_at > st.max_hold_time then
        (none, revokeFloor st cid "@timeout" now)
      else (some holder.speakerUri, st)

/-- The state of the spec's Scenario 3 with `maxHoldTime = 100`: `s:a` was
granted the floor at instant 0 and `s:b` is queued (requested at 10). -/
def timeoutDemo : FloorControl :=
  (request_floor
    (request_floor ({ max_hold_time := 100 } : FloorControl) "C3" "s:a" 0 0).2
    "C3" "s:b" 0 10).2

/-- The mutable state of a `FloorQueue` instance (floor_queue.py):
`_queues` and the configured `_max_size`
(`settings.FLOOR_QUEUE_MAX_SIZE`, default 100).  The source's request dicts
carry the key `"agent_id"`; it is modelled by `FloorRequest.speakerUri`. -/
structure FloorQueue where
  queues : List (String × List FloorRequest) := []
  max_size : Nat := 100
deriving Repr, DecidableEq

/-- Embeds `FloorQueue.enqueue`: refuse (returning `false`) when the conversation's
queue has reached `_max_size`; otherwise append the request and re-sort by
`(-priority, timestamp)`.  This class enforces the queue cap, but
`FloorControl` never uses it: `FloorControl.request_floor` keeps its own
uncapped `_floor_requests` lists. -/
def FloorQueue.enqueue (fq : FloorQueue) (cid agent_id : String)
    (priority : Int) (now : Nat) : Bool × FloorQueue :=
  let qs := match dictGet fq.queues cid with
    | none => dictSet fq.queues cid []
    | some _ => fq.queues
  let q := (dictGet qs cid).getD []
  if q.length ≥ fq.max_size then (false, { fq with queues := qs })
  else
    let q' := sortRequests (q ++ [⟨agent_id, priority, now⟩])
    (true, { fq with queues := dictSet qs cid q' })

/-- A conversation whose pending queue already holds 100 requests — the
default `FLOOR_QUEUE_MAX_SIZE` — while `s:h` holds the floor. -/
def cappedQueue : List FloorRequest :=
  (List.range 100).map (fun i => ⟨"s:q" ++ toString i, 0, i⟩)

def overflowState : FloorControl :=
  { floor_holders := [("big", ⟨"s:h", 0⟩)],
    floor_requests := [("big", cappedQueue)] }

/-- A scalar JSON value, for the schema-free `parameters` payloads
(`Dict[str, Any]`).  The only payload read by any modelled operation is
`parameters.get("priority", 0)` in `FloorManager._process_event`, an
integer, so scalar values suffice for the embedding. -/
inductive JVal where
  | jnum (n : Int)
  | jstr (s : String)
  | jbool (b : Bool)
deriving Repr, DecidableEq

/-- Embeds `EventType` (envelope.py): the closed thirteen-member enumeration. -/
inductive EventType where
  | utterance
  | context
  | invite
  | uninvite
  | acceptInvite
  | declineInvite
  | bye
  | getManifests
  | publishManifests
  | requestFloor
  | grantFloor
  | revokeFloor
  | yieldFloor
deriving Repr, DecidableEq

/-- The string values of `EventType`, as pydantic validates them. -/
def EventType.ofString (s : String) : Option EventType :=
  match s with
  | "utterance" => some .utterance
  | "context" => some .context
  | "invite" => some .invite
  | "uninvite" => some .uninvite
  | "acceptInvite" => some .acceptInvite
  | "declineInvite" => some .declineInvite
  | "bye" => some .bye
  | "getManifests" => some .getManifests
  | "publishManifests" => some .publishManifests
  | "requestFloor" => some .requestFloor
  | "grantFloor" => some .grantFloor
  | "revokeFloor" => some .revokeFloor
  | "yieldFloor" => some .yieldFloor
  | _ => none

/-- Embeds `SchemaObject` (envelope.py): `version` defaults to `"1.0.1"`. -/
structure SchemaObject where
  version : String := "1.0.1"
  url : Option String := none
deriving Repr, DecidableEq

/-- Embeds `ConversationObject` (envelope.py).  Its optional fields
(`conversants`, `assignedFloorRoles`, `floorGranted`) are never read by the
router, the floor manager, or any other modelled operation, and are
omitted. -/
structure ConversationObject where
  id : String
deriving Repr, DecidableEq

/-- Embeds `SenderObject` (envelope.py). -/
structure SenderObject where
  speakerUri : String
  serviceUrl : Option String := none
deriving Repr, DecidableEq

/-- Embeds `ToObject` (envelope.py).  The source field `private` (default
`False`) is named `privateFlag` here, `private` being a Lean keyword. -/
structure ToObject where
  speakerUri : Option String := none
  serviceUrl : Option String := none
  privateFlag : Bool := false
deriving Repr, DecidableEq

/-- Embeds `EventObject` (envelope.py).  The source field `to` is named `toObj`
here, `to` being a reserved token in Lean. -/
structure EventObject where
  toObj : Option ToObject := none
  eventType : EventType
  reason : Option String := none
  parameters : Option (List (String × JVal)) := none
deriving Repr, DecidableEq

/-- Embeds `OpenFloorEnvelope` (envelope.py): the validated envelope value. -/
structure OpenFloorEnvelope where
  schema_obj : SchemaObject
  conversation : ConversationObject
  sender : SenderObject
  events : List EventObject
deriving Repr, DecidableEq

/-- The recipients of one event in the `route_envelope` loop
(router.py lines 82–176 and its duplicate, manager.py lines 121–215): the
registered speaker URIs whose handler is invoked for the event.  `routes`
is the routing table's key list in dict order.  Python's
`if not target_speakerUri` treats an empty-string `speakerUri` like an
absent one ("Event has 'to' section but no speakerUri").  The
private-utterance branch and the default addressed branch are kept separate
exactly as in the source, although both call only the target's handler. -/
def eventRecipients (routes : List String) (senderUri : String)
    (ev : EventObject) : List String :=
  let is_private := match ev.toObj with
    | some t => t.privateFlag && (ev.eventType == EventType.utterance)
    | none => false
  match ev.toObj with
  | none => routes.filter (fun r => r ≠ senderUri)
  | some t =>
      match t.speakerUri with
      | none => []
      | some target =>
          if target = "" then []
          else if is_private then
            if target ∈ routes then [target] else []
          else
            if target ∈ routes then [target] else []

/-- Embeds `route_envelope` (router.py / manager.py): invoke every recipient's
handler for every event; `ok c` abstracts "handler `c` completed without
exception or timeout".  Returns the `routed` flag: true iff at least one
delivery succeeded. -/
def route_envelope (routes : List String) (ok : String → Bool)
    (env : OpenFloorEnvelope) : Bool :=
  env.events.foldl
    (fun routed ev =>
      (eventRecipients routes env.sender.speakerUri ev).foldl
        (fun r c => r || ok c) routed)
    false

/-- Embeds `event.parameters.get("priority", 0) if event.parameters else 0`
(manager.py).  Only an integer `"priority"` is meaningful: any other type
would raise in the queue's tuple sort downstream. -/
def getPriority (params : Option (List (String × JVal))) : Int :=
  match params with
  | none => 0
  | some ps =>
      match dictGet ps "priority" with
      | some (JVal.jnum n) => n
      | _ => 0

/-- The mutable state of a `FloorManager` instance (manager.py): its
floor-control `convener` (always a `FloorControl`: the constructor replaces
`None` by `FloorControl()`) and the routing table `_routes` (modelled by its
key list; handler behaviour is abstracted by the `ok` oracle of
`route_envelope`). -/
structure FloorManager where
  convener : FloorControl := {}
  routes : List String := []
deriving Repr, DecidableEq

/-- Embeds `FloorManager._process_event`: `requestFloor` and `yieldFloor` are
delegated to the convener; `utterance` is only logged; every other event
type is pass-through. -/
def processEvent (fm : FloorManager) (env : OpenFloorEnvelope)
    (ev : EventObject) (now : Nat) : FloorManager :=
  match ev.eventType with
  | EventType.requestFloor =>
      { fm with convener := (request_floor fm.convener env.conversation.id
          env.sender.speakerUri (getPriority ev.parameters) now).2 }
  | EventType.yieldFloor =>
      { fm with convener := (release_floor fm.convener env.conversation.id
          env.sender.speakerUri now).2 }
  | _ => fm

/-- Embeds `FloorManager.process_envelope`: apply each event's floor effect in
array order, route the envelope, and `return True` — the source discards
`route_envelope`'s result and returns `True` unconditionally. -/
def process_envelope (fm : FloorManager) (ok : String → Bool)
    (env : OpenFloorEnvelope) (now : Nat) : Bool × FloorManager :=
  let fm1 := env.events.foldl (fun s ev => processEvent s env ev now) fm
  let _routed := route_envelope fm1.routes ok env
  (true, fm1)

/-- An envelope that can have no visible effect: a single `context` event
addressed to `s:b`, with no handler registered for anyone. -/
def inertEnvelope : OpenFloorEnvelope :=
  ⟨{}, ⟨"conv"⟩, ⟨"s:a", none⟩,
    [⟨some ⟨some "s:b", none, false⟩, EventType.context, none, none⟩]⟩

/-- An input document's `to` block before validation: every pydantic field
of `ToObject` is optional or defaulted, so each is an `Option` here. -/
structure RawTo where
  speakerUri : Option String := none
  serviceUrl : Option String := none
  privateFlag : Option Bool := none
deriving Repr, DecidableEq

/-- An input document's event before validation: `eventType` is required
and must spell a member of the closed `EventType` set; `to`, `reason` and
`parameters` are optional. -/
structure RawEvent where
  toObj : Option RawTo := none
  eventType : Option String := none
  reason : Option String := none
  parameters : Option (List (String × JVal)) := none
deriving Repr, DecidableEq

/-- An input document's `schema` block: both fields optional/defaulted. -/
structure RawSchema where
  version : Option String := none
  url : Option String := none
deriving Repr, DecidableEq

/-- An input document's `conversation` block: `id` is required by the
model.  The optional sub-objects (`conversants`, `assignedFloorRoles`,
`floorGranted`) never cause a validation failure and are never read by a
modelled operation; they are omitted. -/
structure RawConversation where
  id : Option String := none
deriving Repr, DecidableEq

/-- An input document's `sender` block: `speakerUri` required. -/
structure RawSender where
  speakerUri : Option String := none
  serviceUrl : Option String := none
deriving Repr, DecidableEq

/-- An envelope input document (the payload under the `openFloor` wrapper,
or the bare document — `from_dict` accepts both shapes and validates the
same payload). -/
structure RawDoc where
  schema_obj : Option RawSchema := none
  conversation : Option RawConversation := none
  sender : Option RawSender := none
  events : Option (List RawEvent) := none
deriving Repr, DecidableEq

/-- Validation of one event, as pydantic constructs `EventObject`:
`eventType` must be present and in the closed set; `to.private` defaults to
`False`. -/
def parseEvent (e : RawEvent) : Except String EventObject :=
  match e.eventType with
  | none => .error "eventType: field required"
  | some s =>
      match EventType.ofString s with
      | none => .error "eventType: value is not a valid enumeration member"
      | some et =>
          .ok { toObj := e.toObj.map (fun t =>
                  { speakerUri := t.speakerUri,
                    serviceUrl := t.serviceUrl,
                    privateFlag := t.privateFlag.getD false }),
                eventType := et,
                reason := e.reason,
                parameters := e.parameters }

def parseEvents : List RawEvent → Except String (List EventObject)
  | [] => .ok []
  | e :: rest =>
      match parseEvent e, parseEvents rest with
      | .ok pe, .ok prest => .ok (pe :: prest)
      | .error m, _ => .error m
      | .ok _, .error m => .error m

/-- Construction of `OpenFloorEnvelope` from an input document
(`from_dict` / pydantic validation of the model declarations in
envelope.py): `schema`, `conversation` (with `id`), `sender` (with
`speakerUri`) and `events` are required; `schema.version` defaults to
`"1.0.1"`.  `events` may be any list, including the empty one — the field
declares no minimum length. -/
def parseEnvelope (d : RawDoc) : Except String OpenFloorEnvelope :=
  match d.schema_obj with
  | none => .error "schema: field required"
  | some s =>
      match d.conversation with
      | none => .error "conversation: field required"
      | some c =>
          match c.id with
          | none => .error "conversation.id: field required"
          | some cid =>
              match d.sender with
              | none => .error "sender: field required"
              | some sn =>
                  match sn.speakerUri with
                  | none => .error "sender.speakerUri: field required"
                  | some su =>
                      match d.events with
                      | none => .error "events: field required"
                      | some evs =>
                          match parseEvents evs with
                          | .error m => .error m
                          | .ok pevs =>
                              .ok { schema_obj :=
                                      { version := s.version.getD "1.0.1",
                                        url := s.url },
                                    conversation := { id := cid },
                                    sender := { speakerUri := su,
                                                serviceUrl := sn.serviceUrl },
                                    events := pevs }

def exceptIsOk {ε α : Type} : Except ε α → Bool
  | .ok _ => true
  | .error _ => false

/-- The spec's well-formedness condition for C8, written from the claim's
words so it can be compared with the parser: every required field present
(`schema`, `conversation.id`, `sender.speakerUri`, `events`) and every
event's `eventType` present and inside the closed thirteen-member set.
The claim's further condition — that an empty `events` list is rejected —
is deliberately absent: the counterexample shows the code accepts it. -/
def specWellFormedDoc (d : RawDoc) : Bool :=
  d.schema_obj.isSome &&
  (match d.conversation with
   | none => false
   | some c => c.id.isSome) &&
  (match d.sender with
   | none => false
   | some sn => sn.speakerUri.isSome) &&
  (match d.events with
   | none => false
   | some evs => evs.all (fun e =>
       match e.eventType with
       | none => false
       | some s => (EventType.ofString s).isSome))

/-- A complete document whose `events` list is empty. -/
def emptyEventsDoc : RawDoc :=
  { schema_obj := some { version := some "1.0.0", url := none },
    conversation := some { id := some "conv" },
    sender := some { speakerUri := some "s:a", serviceUrl := none },
    events := some [] }

/-- Embeds `ManifestStatus` (ans/models.py). -/
inductive ManifestStatus where
  | active
  | deprecated
  | inactive
deriving Repr, DecidableEq

/-- A stored `Manifest` (ans/models.py).  `published_at`/`updated_at`
instants are `Nat`, `metadata` is an opaque scalar map. -/
structure Manifest where
  id : Option Int := none
  speaker_uri : String
  service_url : Option String := none
  organization : Option String := none
  conversational_name : Option String := none
  role : Option String := none
  synopsis : Option String := none
  capabilities : List String := []
  status : ManifestStatus := ManifestStatus.active
  published_at : Option Nat := none
  updated_at : Option Nat := none
  metadata : List (String × JVal) := []
deriving Repr, DecidableEq

/-- Embeds `ManifestFilters` (ans/models.py): `status` *defaults to*
`ManifestStatus.ACTIVE` in the pydantic model. -/
structure ManifestFilters where
  capabilities : Option (List String) := none
  organization : Option String := none
  role : Option String := none
  speaker_uri : Option String := none
  status : Option ManifestStatus := some ManifestStatus.active
deriving Repr, DecidableEq

/-- Embeds `ManifestStorage.search` (ans/storage.py) over the store's values in
dict order.  Python truthiness is mirrored exactly: a `None` **or empty**
capability list skips the capability filter, and a `None` or empty string
skips each string filter; `filters.status` is an enum of non-empty strings,
so `if filters.status:` is its `isSome` test and `elif filters.status is
None:` applies the active-only default. -/
def search (store : List Manifest) (filters : Option ManifestFilters) :
    List Manifest :=
  match filters with
  | none => store.filter (fun m => m.status == ManifestStatus.active)
  | some f =>
      let r0 := match f.status with
        | some s => store.filter (fun m => m.status == s)
        | none => store.filter (fun m => m.status == ManifestStatus.active)
      let r1 := match f.speaker_uri with
        | some s =>
            if s = "" then r0 else r0.filter (fun m => m.speaker_uri == s)
        | none => r0
      let r2 := match f.organization with
        | some s =>
            if s = "" then r1
            else r1.filter (fun m => m.organization == some s)
        | none => r1
      let r3 := match f.role with
        | some s =>
            if s = "" then r2 else r2.filter (fun m => m.role == some s)
        | none => r2
      match f.capabilities with
      | some caps =>
          if caps = [] then r3
          else r3.filter (fun m => caps.all (fun c => m.capabilities.contains c))
      | none => r3

/-- The `ManifestFilters` value pydantic builds from the input
`{"capabilities": F}`: every other field keeps its default, in particular
`status = some ACTIVE`. -/
def filtersOfCapabilities (F : List String) : ManifestFilters :=
  { capabilities := some F }

theorem dictGet_dictSet_self {α : Type} (m : List (String × α)) (k : String)
    (v : α) : dictGet (dictSet m k v) k = some v := by
  induction m with
  | nil => simp [dictGet, dictSet]
  | cons hd tl ih =>
      obtain ⟨k', v'⟩ := hd
      by_cases hk : k' = k
      · simp [dictGet, dictSet, hk]
      · simp [dictGet, dictSet, hk, ih]

theorem dictGet_dictSet_ne {α : Type} (m : List (String × α)) (k k' : String)
    (v : α) (h : k ≠ k') : dictGet (dictSet m k v) k' = dictGet m k' := by
  induction m with
  | nil => simp [dictGet, dictSet, h]
  | cons hd tl ih =>
      obtain ⟨k0, v0⟩ := hd
      by_cases hk : k0 = k
      · subst hk
        simp [dictGet, dictSet, h]
      · simp only [dictSet, if_neg hk, dictGet]
        by_cases hk' : k0 = k'
        · simp [hk']
        · simp [hk', ih]

theorem dictGet_dictErase_self {α : Type} (m : List (String × α)) (k : String) :
    dictGet (dictErase m k) k = none := by
  induction m with
  | nil => simp [dictGet, dictErase]
  | cons hd tl ih =>
      obtain ⟨k0, v0⟩ := hd
      by_cases hk : k0 = k
      · simpa [dictErase, hk] using ih
      · simpa [dictErase, dictGet, hk] using ih

theorem dictGet_dictErase_ne {α : Type} (m : List (String × α)) (k k' : String)
    (h : k ≠ k') : dictGet (dictErase m k) k' = dictGet m k' := by
  induction m with
  | nil => simp [dictGet, dictErase]
  | cons hd tl ih =>
      obtain ⟨k0, v0⟩ := hd
      by_cases hk : k0 = k
      · subst hk
        simpa [dictErase, dictGet, h] using ih
      · by_cases hk' : k0 = k'
        · simp [dictErase, List.filter_cons, dictGet, hk, hk', Ne.symm h]
        · simpa [dictErase, List.filter_cons, dictGet, hk, hk'] using ih

theorem reqKeyLE_trans (a b c : FloorRequest) :
    reqKeyLE a b → reqKeyLE b c → reqKeyLE a c := by
  simp only [reqKeyLE, Bool.or_eq_true, Bool.and_eq_true, decide_eq_true_eq]
  omega

theorem reqKeyLE_total (a b : FloorRequest) : reqKeyLE a b || reqKeyLE b a := by
  simp only [reqKeyLE, Bool.or_eq_true, Bool.and_eq_true, decide_eq_true_eq]
  omega

theorem insertSorted_append (a : FloorRequest) (l₁ l₂ : List FloorRequest)
    (h₁ : ∀ b ∈ l₁, reqKeyLE a b = false)
    (h₂ : ∀ c ∈ l₂.head?, reqKeyLE a c = true) :
    insertSorted a (l₁ ++ l₂) = l₁ ++ a :: l₂ := by
  induction l₁ with
  | nil =>
      cases l₂ with
      | nil => rfl
      | cons c l => simp [insertSorted, h₂ c rfl]
  | cons b l₁ ih =>
      have hb : reqKeyLE a b = false := h₁ b (List.mem_cons_self b l₁)
      simp [insertSorted, hb,
        ih (fun b' hb' => h₁ b' (List.mem_cons_of_mem _ hb'))]

/-- The structural stable insertion sort agrees with the stable
`List.mergeSort`: both are stable sorts by the total preorder `reqKeyLE`. -/
theorem sortRequests_eq_mergeSort (l : List FloorRequest) :
    sortRequests l = l.mergeSort reqKeyLE := by
  induction l with
  | nil => simp [sortRequests]
  | cons a l ih =>
      obtain ⟨l₁, l₂, h1, h2, h3⟩ :=
        List.mergeSort_cons (fun a b c => reqKeyLE_trans a b c)
          (fun a b => reqKeyLE_total a b) a l
      rw [sortRequests, ih, h2, h1]
      apply insertSorted_append
      · intro b hb
        have := h3 b hb
        simpa using this
      · intro c hc
        have hs := List.sorted_mergeSort (fun a b c => reqKeyLE_trans a b c)
          (fun a b => reqKeyLE_total a b) (a :: l)
        rw [h1] at hs
        have := (List.pairwise_append.mp hs).2.1
        have hmem : c ∈ l₂ := by
          cases l₂ with
          | nil => simp at hc
          | cons d l' =>
              simp only [List.head?_cons, Option.mem_some_iff] at hc
              exact hc ▸ List.mem_cons_self d l'
        exact List.rel_of_pairwise_cons this hmem

theorem sortRequests_perm (l : List FloorRequest) :
    (sortRequests l).Perm l := by
  rw [sortRequests_eq_mergeSort]
  exact List.mergeSort_perm l reqKeyLE

theorem sortRequests_sorted (l : List FloorRequest) :
    (sortRequests l).Pairwise (fun a b => reqKeyLE a b = true) := by
  rw [sortRequests_eq_mergeSort]
  exact List.sorted_mergeSort (fun a b c => reqKeyLE_trans a b c)
    (fun a b => reqKeyLE_total a b) l

@[simp] theorem initMetadata_floor_holders (st : FloorControl) (cid : String) :
    (initMetadata st cid).floor_holders = st.floor_holders := by
  cases h : dictGet st.conversation_metadata cid <;> simp [initMetadata, h]

@[simp] theorem initMetadata_floor_requests (st : FloorControl) (cid : String) :
    (initMetadata st cid).floor_requests = st.floor_requests := by
  cases h : dictGet st.conversation_metadata cid <;> simp [initMetadata, h]

@[simp] theorem initMetadata_max_hold_time (st : FloorControl) (cid : String) :
    (initMetadata st cid).max_hold_time = st.max_hold_time := by
  cases h : dictGet st.conversation_metadata cid <;> simp [initMetadata, h]

@[simp] theorem grantFloor_floor_holders (st : FloorControl) (cid s : String)
    (now : Nat) :
    (grantFloor st cid s now).floor_holders = dictSet st.floor_holders cid ⟨s, now⟩ := by
  simp [grantFloor]

@[simp] theorem grantFloor_floor_requests (st : FloorControl) (cid s : String)
    (now : Nat) :
    (grantFloor st cid s now).floor_requests = st.floor_requests := by
  simp [grantFloor]

@[simp] theorem grantFloor_max_hold_time (st : FloorControl) (cid s : String)
    (now : Nat) :
    (grantFloor st cid s now).max_hold_time = st.max_hold_time := by
  simp [grantFloor]

@[simp] theorem clearFloorGranted_floor_holders (st : FloorControl) (cid : String) :
    (clearFloorGranted st cid).floor_holders = st.floor_holders := by
  cases h : dictGet st.conversation_metadata cid <;> simp [clearFloorGranted, h]

@[simp] theorem clearFloorGranted_floor_requests (st : FloorControl) (cid : String) :
    (clearFloorGranted st cid).floor_requests = st.floor_requests := by
  cases h : dictGet st.conversation_metadata cid <;> simp [clearFloorGranted, h]

@[simp] theorem clearFloorGranted_max_hold_time (st : FloorControl) (cid : String) :
    (clearFloorGranted st cid).max_hold_time = st.max_hold_time := by
  cases h : dictGet st.conversation_metadata cid <;> simp [clearFloorGranted, h]

theorem processQueue_of_empty (st : FloorControl) (cid : String) (now : Nat)
    (h : (dictGet st.floor_requests cid).getD [] = []) :
    processQueue st cid now = st := by
  unfold processQueue
  cases hq : dictGet st.floor_requests cid with
  | none => rfl
  | some q =>
      cases q with
      | nil => rfl
      | cons a l => simp [hq] at h

theorem processQueue_holders_of_cons (st : FloorControl) (cid : String)
    (now : Nat) (next : FloorRequest) (rest : List FloorRequest)
    (h : dictGet st.floor_requests cid = some (next :: rest)) :
    dictGet (processQueue st cid now).floor_holders cid =
      some ⟨next.speakerUri, now⟩ := by
  simp only [processQueue, h]
  split <;> simp [dictGet_dictSet_self]

theorem processQueue_requests_of_cons (st : FloorControl) (cid : String)
    (now : Nat) (next : FloorRequest) (rest : List FloorRequest)
    (h : dictGet st.floor_requests cid = some (next :: rest)) :
    dictGet (processQueue st cid now).floor_requests cid =
      if rest = [] then none else some rest := by
  simp only [processQueue, h]
  split
  · rename_i hrest
    rw [List.isEmpty_iff] at hrest
    simp [hrest, dictGet_dictErase_self]
  · rename_i hrest
    have hne : rest ≠ [] := by
      intro he
      exact hrest (by simp [he])
    simp [hne, dictGet_dictSet_self]

theorem reqKeyLE_refl (a : FloorRequest) : reqKeyLE a a = true := by
  simp [reqKeyLE]

/-- C1: with no current holder, `request_floor` grants immediately, returns
`true`, and `get_floor_holder` right afterwards reports the requester; with
a holder, it returns `false`, leaves the holder alone, and stores the queue
with `{S, p, now}` appended, stably sorted by `(-priority, timestamp)`
(the stored queue is a sorted permutation of the old queue plus the new
request). -/
theorem requestFloor_grant_or_enqueue (st : FloorControl) (cid S : String)
    (p : Int) (now : Nat) :
    (dictGet st.floor_holders cid = none →
      (request_floor st cid S p now).1 = true ∧
      dictGet (request_floor st cid S p now).2.floor_holders cid =
        some ⟨S, now⟩ ∧
      (get_floor_holder (request_floor st cid S p now).2 cid now).1 = some S) ∧
    (∀ h : Holder, dictGet st.floor_holders cid = some h →
      (request_floor st cid S p now).1 = false ∧
      dictGet (request_floor st cid S p now).2.floor_holders cid = some h ∧
      dictGet (request_floor st cid S p now).2.floor_requests cid =
        some (sortRequests
          (((dictGet st.floor_requests cid).getD []) ++ [⟨S, p, now⟩])) ∧
      (sortRequests
          (((dictGet st.floor_requests cid).getD []) ++ [⟨S, p, now⟩])).Perm
        (((dictGet st.floor_requests cid).getD []) ++ [⟨S, p, now⟩]) ∧
      (sortRequests
          (((dictGet st.floor_requests cid).getD []) ++ [⟨S, p, now⟩])).Pairwise
        (fun a b => reqKeyLE a b = true)) := by
  constructor
  · intro hnone
    have h1 : (request_floor st cid S p now).1 = true := by
      simp [request_floor, hnone]
    have h2 : dictGet (request_floor st cid S p now).2.floor_holders cid =
        some ⟨S, now⟩ := by
      simp [request_floor, hnone, dictGet_dictSet_self]
    refine ⟨h1, h2, ?_⟩
    have hmax : (request_floor st cid S p now).2.max_hold_time =
        st.max_hold_time := by
      simp [request_floor, hnone]
    simp [get_floor_holder, h2, hmax]
  · intro h hsome
    refine ⟨?_, ?_, ?_, sortRequests_perm _, sortRequests_sorted _⟩
    · simp [request_floor, hsome]
    · simp [request_floor, hsome]
    · simp [request_floor, hsome, dictGet_dictSet_self]

/-- Witness for C1 at concrete inputs: a fresh conversation grants `s:a`
immediately; a second request by `s:b` with the floor held is queued. -/
theorem requestFloor_grant_or_enqueue_witness :
    (request_floor ({} : FloorControl) "c" "s:a" 5 0).1 = true ∧
    (request_floor (request_floor ({} : FloorControl) "c" "s:a" 5 0).2
      "c" "s:b" 3 1).1 = false := by
  constructor
  · exact ((requestFloor_grant_or_enqueue ({} : FloorControl) "c" "s:a" 5 0).1
      rfl).1
  · exact ((requestFloor_grant_or_enqueue
      (request_floor ({} : FloorControl) "c" "s:a" 5 0).2 "c" "s:b" 3 1).2
      ⟨"s:a", 0⟩ (by decide)).1

/-- C2: `release_floor` succeeds exactly when the caller is the current
holder; a failed release changes nothing; a successful release promotes the
stored queue's head (who, in a queue sorted by `(-priority, timestamp)`, is
of maximal priority with the earliest timestamp among ties), and leaves the
conversation with no holder when the queue was empty. -/
theorem releaseFloor_spec (st : FloorControl) (cid S : String) (now : Nat) :
    ((release_floor st cid S now).1 = true ↔
      (dictGet st.floor_holders cid).map Holder.speakerUri = some S) ∧
    ((release_floor st cid S now).1 = false →
      (release_floor st cid S now).2 = st) ∧
    (∀ h : Holder, dictGet st.floor_holders cid = some h → h.speakerUri = S →
      (∀ next rest, dictGet st.floor_requests cid = some (next :: rest) →
        dictGet (release_floor st cid S now).2.floor_holders cid =
          some ⟨next.speakerUri, now⟩ ∧
        ((next :: rest).Pairwise (fun a b => reqKeyLE a b = true) →
          ∀ r ∈ next :: rest, reqKeyLE next r = true)) ∧
      ((dictGet st.floor_requests cid).getD [] = [] →
        dictGet (release_floor st cid S now).2.floor_holders cid = none)) := by
  refine ⟨?_, ?_, ?_⟩
  · cases hh : dictGet st.floor_holders cid with
    | none => simp [release_floor, hh]
    | some h =>
        by_cases hs : h.speakerUri = S
        · simp [release_floor, hh, hs]
        · simp [release_floor, hh, hs]
  · intro hfalse
    cases hh : dictGet st.floor_holders cid with
    | none => simp [release_floor, hh]
    | some h =>
        by_cases hs : h.speakerUri = S
        · simp [release_floor, hh, hs] at hfalse
        · simp [release_floor, hh, hs]
  · intro h hh hs
    have hres : release_floor st cid S now =
        (true, processQueue
          (clearFloorGranted
            ({ st with floor_holders := dictErase st.floor_holders cid }) cid)
          cid now) := by
      simp [release_floor, hh, hs]
    constructor
    · intro next rest hq
      have hq' : dictGet (clearFloorGranted
          ({ st with floor_holders := dictErase st.floor_holders cid })
          cid).floor_requests cid = some (next :: rest) := by
        simpa using hq
      constructor
      · rw [hres]
        exact processQueue_holders_of_cons _ cid now next rest hq'
      · intro hsorted r hr
        rcases List.mem_cons.mp hr with hr | hr
        · rw [hr]; exact reqKeyLE_refl next
        · exact List.rel_of_pairwise_cons hsorted hr
    · intro hq
      have hq' : (dictGet (clearFloorGranted
          ({ st with floor_holders := dictErase st.floor_holders cid })
          cid).floor_requests cid).getD [] = [] := by
        simpa using hq
      rw [hres]
      rw [processQueue_of_empty _ cid now hq']
      simp [dictGet_dictErase_self]

/-- Witness for C2 at concrete inputs: after `s:a` is granted and `s:b`
queued, a release by `s:b` fails and changes nothing, and a release by
`s:a` promotes `s:b`. -/
theorem releaseFloor_spec_witness :
    ((release_floor (request_floor (request_floor ({} : FloorControl)
        "c" "s:a" 5 0).2 "c" "s:b" 3 1).2 "c" "s:b" 2).1 = false ∧
      (release_floor (request_floor (request_floor ({} : FloorControl)
        "c" "s:a" 5 0).2 "c" "s:b" 3 1).2 "c" "s:b" 2).2 =
        (request_floor (request_floor ({} : FloorControl)
          "c" "s:a" 5 0).2 "c" "s:b" 3 1).2) ∧
    dictGet (release_floor (request_floor (request_floor ({} : FloorControl)
        "c" "s:a" 5 0).2 "c" "s:b" 3 1).2 "c" "s:a" 2).2.floor_holders "c" =
      some ⟨"s:b", 2⟩ := by
  constructor
  · constructor
    · have := (releaseFloor_spec (request_floor (request_floor
        ({} : FloorControl) "c" "s:a" 5 0).2 "c" "s:b" 3 1).2 "c" "s:b" 2).1
      by_cases hb : (release_floor (request_floor (request_floor
          ({} : FloorControl) "c" "s:a" 5 0).2 "c" "s:b" 3 1).2
          "c" "s:b" 2).1 = true
      · exfalso
        have := this.mp hb
        revert this
        decide
      · simpa using hb
    · apply (releaseFloor_spec (request_floor (request_floor
        ({} : FloorControl) "c" "s:a" 5 0).2 "c" "s:b" 3 1).2 "c" "s:b" 2).2.1
      by_cases hb : (release_floor (request_floor (request_floor
          ({} : FloorControl) "c" "s:a" 5 0).2 "c" "s:b" 3 1).2
          "c" "s:b" 2).1 = true
      · exfalso
        have := ((releaseFloor_spec (request_floor (request_floor
            ({} : FloorControl) "c" "s:a" 5 0).2 "c" "s:b" 3 1).2
            "c" "s:b" 2).1).mp hb
        revert this
        decide
      · simpa using hb
  · exact (((releaseFloor_spec (request_floor (request_floor
      ({} : FloorControl) "c" "s:a" 5 0).2 "c" "s:b" 3 1).2 "c" "s:a" 2).2.2
      ⟨"s:a", 0⟩ (by decide) (by decide)).1 ⟨"s:b", 3, 1⟩ [] (by decide)).1

/-- C3 counterexample: at instant 150 the hold (granted at 0, max 100) has
expired and the queue is non-empty, yet `get_floor_holder` returns `none` —
not the newly promoted holder `s:b` the claim promises.  The revocation and
promotion themselves do happen: the post-state's holder is `s:b`. -/
theorem getHolder_timeout_returns_none :
    (dictGet timeoutDemo.floor_requests "C3").getD [] ≠ [] ∧
    (get_floor_holder timeoutDemo "C3" 150).1 = none ∧
    dictGet (get_floor_holder timeoutDemo "C3" 150).2.floor_holders "C3" =
      some ⟨"s:b", 150⟩ := by
  decide

/-- C3 (amended): when a holder's grant has expired at the observing call,
`get_floor_holder` atomically revokes with reason `@timeout` and promotes
the queue head (if any) to holder in the resulting state, but the call
itself returns `none`; only a subsequent observation reports the promoted
holder. -/
theorem getHolder_timeout_spec (st : FloorControl) (cid : String) (now : Nat)
    (h : Holder) (hh : dictGet st.floor_holders cid = some h)
    (ht : now - h.granted_at > st.max_hold_time) :
    (get_floor_holder st cid now).1 = none ∧
    (∀ next rest, dictGet st.floor_requests cid = some (next :: rest) →
      dictGet (get_floor_holder st cid now).2.floor_holders cid =
        some ⟨next.speakerUri, now⟩ ∧
      (get_floor_holder (get_floor_holder st cid now).2 cid now).1 =
        some next.speakerUri) ∧
    ((dictGet st.floor_requests cid).getD [] = [] →
      dictGet (get_floor_holder st cid now).2.floor_holders cid = none) := by
  have hres : get_floor_holder st cid now =
      (none, processQueue
        (clearFloorGranted
          ({ st with floor_holders := dictErase st.floor_holders cid }) cid)
        cid now) := by
    simp [get_floor_holder, hh, ht, revokeFloor]
  refine ⟨by rw [hres], ?_, ?_⟩
  · intro next rest hq
    have hq' : dictGet (clearFloorGranted
        ({ st with floor_holders := dictErase st.floor_holders cid })
        cid).floor_requests cid = some (next :: rest) := by
      simpa using hq
    have hhold := processQueue_holders_of_cons _ cid now next rest hq'
    rw [hres]
    refine ⟨hhold, ?_⟩
    have hmax : (processQueue
        (clearFloorGranted
          ({ st with floor_holders := dictErase st.floor_holders cid }) cid)
        cid now).max_hold_time = st.max_hold_time := by
      simp only [processQueue, hq']
      split <;> simp
    simp [get_floor_holder, hhold, hmax]
  · intro hq
    have hq' : (dictGet (clearFloorGranted
        ({ st with floor_holders := dictErase st.floor_holders cid })
        cid).floor_requests cid).getD [] = [] := by
      simpa using hq
    rw [hres, processQueue_of_empty _ cid now hq']
    simp [dictGet_dictErase_self]

/-- Witness for the amended C3 at the Scenario 3 state: the expired call
returns `none`, the post-state holder is `s:b`, and the next observation
reports `s:b`. -/
theorem getHolder_timeout_spec_witness :
    (get_floor_holder timeoutDemo "C3" 150).1 = none ∧
    dictGet (get_floor_holder timeoutDemo "C3" 150).2.floor_holders "C3" =
      some ⟨"s:b", 150⟩ ∧
    (get_floor_holder (get_floor_holder timeoutDemo "C3" 150).2 "C3" 150).1 =
      some "s:b" := by
  refine ⟨(getHolder_timeout_spec timeoutDemo "C3" 150 ⟨"s:a", 0⟩
      (by decide) (by decide)).1, ?_, ?_⟩
  · exact ((getHolder_timeout_spec timeoutDemo "C3" 150 ⟨"s:a", 0⟩
      (by decide) (by decide)).2.1 ⟨"s:b", 0, 10⟩ [] (by decide)).1
  · exact ((getHolder_timeout_spec timeoutDemo "C3" 150 ⟨"s:a", 0⟩
      (by decide) (by decide)).2.1 ⟨"s:b", 0, 10⟩ [] (by decide)).2

/-- Lemma: `FloorQueue.enqueue` at a full queue refuses and leaves the stored queue
unchanged — the very behaviour the spec ascribes to floor requests. -/
theorem FloorQueue.enqueue_full (fq : FloorQueue) (cid aid : String)
    (p : Int) (now : Nat)
    (h : ((dictGet fq.queues cid).getD []).length ≥ fq.max_size) :
    (FloorQueue.enqueue fq cid aid p now).1 = false ∧
    (dictGet (FloorQueue.enqueue fq cid aid p now).2.queues cid).getD [] =
      (dictGet fq.queues cid).getD [] := by
  cases hq : dictGet fq.queues cid with
  | none =>
      simp only [hq, Option.getD_none, List.length_nil] at h
      constructor
      · simp [FloorQueue.enqueue, hq, dictGet_dictSet_self, h]
      · simp [FloorQueue.enqueue, hq, dictGet_dictSet_self, h]
  | some q =>
      have hq' : (dictGet fq.queues cid).getD [] = q := by simp [hq]
      rw [hq'] at h
      constructor
      · simp [FloorQueue.enqueue, hq, h]
      · simp [FloorQueue.enqueue, hq, h]

/-- C4: `FloorControl.request_floor` never consults the configured queue
cap: at a queue already holding 100 (= default `FLOOR_QUEUE_MAX_SIZE`)
pending requests it still appends, growing the queue to 101 entries,
instead of refusing with the queue left unchanged. -/
theorem requestFloor_overflow_growth :
    cappedQueue.length = 100 ∧
    (request_floor overflowState "big" "s:new" 0 200).1 = false ∧
    ((dictGet (request_floor overflowState "big" "s:new" 0
      200).2.floor_requests "big").getD []).length = 101 := by
  refine ⟨by simp [cappedQueue], ?_, ?_⟩
  · simp [request_floor, overflowState, dictGet]
  · have hq : dictGet (request_floor overflowState "big" "s:new" 0
        200).2.floor_requests "big" =
        some (sortRequests (cappedQueue ++ [⟨"s:new", 0, 200⟩])) := by
      simp [request_floor, overflowState, dictGet, dictGet_dictSet_self]
    rw [hq]
    simp [(sortRequests_perm _).length_eq, cappedQueue]

/-- C10: a request by the current holder itself is enqueued (no
deduplication against the holder) and refused with `false`; once the holder
then releases, the queue head is promoted, so when the holder's own queued
request sits at the head the holder is immediately re-granted the floor. -/
theorem requestFloor_self_requeue (st : FloorControl) (cid S : String)
    (p : Int) (now now2 : Nat) (h : Holder)
    (hh : dictGet st.floor_holders cid = some h) (hs : h.speakerUri = S) :
    (request_floor st cid S p now).1 = false ∧
    dictGet (request_floor st cid S p now).2.floor_requests cid =
      some (sortRequests
        (((dictGet st.floor_requests cid).getD []) ++ [⟨S, p, now⟩])) ∧
    (release_floor (request_floor st cid S p now).2 cid S now2).1 = true ∧
    (∀ next rest,
      sortRequests (((dictGet st.floor_requests cid).getD []) ++
        [⟨S, p, now⟩]) = next :: rest →
      next.speakerUri = S →
      (dictGet (release_floor (request_floor st cid S p now).2 cid S
        now2).2.floor_holders cid).map Holder.speakerUri = some S) := by
  have hh1 : dictGet (request_floor st cid S p now).2.floor_holders cid =
      some h := by
    simp [request_floor, hh]
  have hq1 : dictGet (request_floor st cid S p now).2.floor_requests cid =
      some (sortRequests
        (((dictGet st.floor_requests cid).getD []) ++ [⟨S, p, now⟩])) := by
    simp [request_floor, hh, dictGet_dictSet_self]
  refine ⟨by simp [request_floor, hh], hq1, ?_, ?_⟩
  · simp [release_floor, hh1, hs]
  · intro next rest hsort hnext
    rw [hsort] at hq1
    generalize (request_floor st cid S p now).2 = st1 at hh1 hq1
    have hres : release_floor st1 cid S now2 =
        (true, processQueue
          (clearFloorGranted
            ({ st1 with floor_holders := dictErase st1.floor_holders cid })
            cid) cid now2) := by
      simp [release_floor, hh1, hs]
    have hq' : dictGet (clearFloorGranted
        ({ st1 with floor_holders := dictErase st1.floor_holders cid })
        cid).floor_requests cid = some (next :: rest) := by
      simpa using hq1
    rw [hres]
    rw [processQueue_holders_of_cons _ cid now2 next rest hq']
    simp [hnext]

/-- Witness for C10: `s:a` holds the floor, requests again (refused and
queued), releases, and is immediately re-granted. -/
theorem requestFloor_self_requeue_witness :
    (request_floor (request_floor ({} : FloorControl) "c" "s:a" 0 0).2
      "c" "s:a" 2 1).1 = false ∧
    (dictGet (release_floor (request_floor (request_floor
      ({} : FloorControl) "c" "s:a" 0 0).2 "c" "s:a" 2 1).2 "c" "s:a"
      5).2.floor_holders "c").map Holder.speakerUri = some "s:a" := by
  refine ⟨?_, ?_⟩
  · exact (requestFloor_self_requeue (request_floor ({} : FloorControl)
      "c" "s:a" 0 0).2 "c" "s:a" 2 1 5 ⟨"s:a", 0⟩ (by decide) rfl).1
  · exact (requestFloor_self_requeue (request_floor ({} : FloorControl)
      "c" "s:a" 0 0).2 "c" "s:a" 2 1 5 ⟨"s:a", 0⟩ (by decide) rfl).2.2.2
      ⟨"s:a", 2, 1⟩ [] (by decide) rfl

/-- C5: a private utterance addressed to `target` is delivered to exactly
the handler registered for `target` (one invocation if registered, zero
otherwise) and to no other handler.  Presence of `to.speakerUri` follows
the source's own test `if not target_speakerUri`: a non-empty string. -/
theorem routeEnvelope_private_utterance (routes : List String)
    (env : OpenFloorEnvelope) (ev : EventObject) (t : ToObject)
    (target : String) (hev : ev ∈ env.events)
    (hty : ev.eventType = EventType.utterance) (hto : ev.toObj = some t)
    (htgt : t.speakerUri = some target) (hne : target ≠ "")
    (hpriv : t.privateFlag = true) :
    eventRecipients routes env.sender.speakerUri ev =
      (if target ∈ routes then [target] else []) ∧
    (eventRecipients routes env.sender.speakerUri ev).length ≤ 1 ∧
    (∀ c ∈ eventRecipients routes env.sender.speakerUri ev, c = target) := by
  have hrec : eventRecipients routes env.sender.speakerUri ev =
      (if target ∈ routes then [target] else []) := by
    simp [eventRecipients, hto, htgt, hne, hty, hpriv]
  refine ⟨hrec, ?_, ?_⟩
  · rw [hrec]
    split <;> simp
  · rw [hrec]
    split <;> simp

/-- Witness for C5 at the spec's Scenario 4: handlers for `s:a`, `s:b`,
`s:c`; `s:a` sends a private utterance to `s:b`; only `s:b` receives it. -/
theorem routeEnvelope_private_utterance_witness :
    eventRecipients ["s:a", "s:b", "s:c"] "s:a"
      ⟨some ⟨some "s:b", none, true⟩, EventType.utterance, none, none⟩ =
      ["s:b"] := by
  have h := (routeEnvelope_private_utterance ["s:a", "s:b", "s:c"]
    ⟨{}, ⟨"conv"⟩, ⟨"s:a", none⟩,
      [⟨some ⟨some "s:b", none, true⟩, EventType.utterance, none, none⟩]⟩
    ⟨some ⟨some "s:b", none, true⟩, EventType.utterance, none, none⟩
    ⟨some "s:b", none, true⟩ "s:b" (by decide) rfl rfl rfl
    (by decide) rfl).1
  rw [h]
  decide

/-- C6: for an event whose type is not `utterance`, the recipients computed
by the routing loop do not depend on the `private` flag at all. -/
theorem routeEnvelope_privacy_ignored (routes : List String)
    (sender : String) (ev : EventObject) (t : ToObject) (b₁ b₂ : Bool)
    (hty : ev.eventType ≠ EventType.utterance) :
    eventRecipients routes sender
      { ev with toObj := some { t with privateFlag := b₁ } } =
    eventRecipients routes sender
      { ev with toObj := some { t with privateFlag := b₂ } } := by
  have hne : (ev.eventType == EventType.utterance) = false := by
    simpa using hty
  cases t.speakerUri with
  | none => simp [eventRecipients, hne]
  | some target => simp [eventRecipients, hne]

/-- Witness for C6 at the spec's Scenario 5: an `invite` to `s:b` reaches
`s:b` alone whether or not it is flagged private. -/
theorem routeEnvelope_privacy_ignored_witness :
    eventRecipients ["s:a", "s:b", "s:c"] "s:a"
      ⟨some ⟨some "s:b", none, true⟩, EventType.invite, none, none⟩ =
    eventRecipients ["s:a", "s:b", "s:c"] "s:a"
      ⟨some ⟨some "s:b", none, false⟩, EventType.invite, none, none⟩ ∧
    eventRecipients ["s:a", "s:b", "s:c"] "s:a"
      ⟨some ⟨some "s:b", none, true⟩, EventType.invite, none, none⟩ =
      ["s:b"] := by
  constructor
  · exact routeEnvelope_privacy_ignored ["s:a", "s:b", "s:c"] "s:a"
      ⟨some ⟨some "s:b", none, true⟩, EventType.invite, none, none⟩
      ⟨some "s:b", none, true⟩ true false (by decide)
  · decide

/-- C7 counterexample: `process_envelope` returns `true` on an envelope
that mutates no floor state (`context` has no pre-routing effect; the
manager state is returned unchanged) and reaches no registered recipient
(`route_envelope` reports `false`) — the claim says such a call returns
`false`. -/
theorem processEnvelope_true_counterexample :
    (process_envelope ({} : FloorManager) (fun _ => false)
      inertEnvelope 17).1 = true ∧
    (process_envelope ({} : FloorManager) (fun _ => false)
      inertEnvelope 17).2 = ({} : FloorManager) ∧
    route_envelope ({} : FloorManager).routes (fun _ => false)
      inertEnvelope = false := by
  decide

/-- C7 (amended): `process_envelope` returns `true` for every envelope,
whether or not any event mutated floor state and whether or not any
delivery succeeded. -/
theorem processEnvelope_always_true (fm : FloorManager) (ok : String → Bool)
    (env : OpenFloorEnvelope) (now : Nat) :
    (process_envelope fm ok env now).1 = true := by
  simp [process_envelope]

/-- C8 counterexample: a document with all required fields but an empty
`events` list parses successfully — the `events` field of the pydantic
model carries no minimum-length constraint, so the claimed
"fails … the events list is empty" case does not exist in the code. -/
theorem parseEnvelope_accepts_empty_events :
    exceptIsOk (parseEnvelope emptyEventsDoc) = true ∧
    (parseEnvelope emptyEventsDoc).toOption =
      some ⟨⟨"1.0.0", none⟩, ⟨"conv"⟩, ⟨"s:a", none⟩, []⟩ := by
  decide

theorem parseEvents_ok_iff (evs : List RawEvent) :
    exceptIsOk (parseEvents evs) =
      evs.all (fun e =>
        match e.eventType with
        | none => false
        | some s => (EventType.ofString s).isSome) := by
  induction evs with
  | nil => rfl
  | cons e rest ih =>
      cases he : e.eventType with
      | none => simp [parseEvents, parseEvent, he, exceptIsOk]
      | some s =>
          cases ht : EventType.ofString s with
          | none => simp [parseEvents, parseEvent, he, ht, exceptIsOk]
          | some et =>
              cases hr : parseEvents rest with
              | error m =>
                  simp [parseEvents, parseEvent, he, ht, hr]
                  simpa [hr, exceptIsOk] using ih.symm
              | ok pevs =>
                  simp only [parseEvents, parseEvent, he, ht, List.all_cons]
                  rw [hr]
                  simp only [exceptIsOk]
                  rw [hr] at ih
                  simp only [exceptIsOk] at ih
                  simp [← ih, ht]

/-- C8 (amended): envelope parsing succeeds exactly when `schema`,
`conversation.id`, `sender.speakerUri` and `events` are present and every
event's `eventType` lies inside the closed thirteen-member set; a missing
required field or an out-of-set `eventType` fails with a
malformed-envelope error, while an empty `events` list is accepted. -/
theorem parseEnvelope_ok_iff (d : RawDoc) :
    exceptIsOk (parseEnvelope d) = specWellFormedDoc d := by
  cases hs : d.schema_obj with
  | none => simp [parseEnvelope, specWellFormedDoc, hs, exceptIsOk]
  | some s =>
  cases hc : d.conversation with
  | none => simp [parseEnvelope, specWellFormedDoc, hs, hc, exceptIsOk]
  | some c =>
  cases hcid : c.id with
  | none => simp [parseEnvelope, specWellFormedDoc, hs, hc, hcid, exceptIsOk]
  | some cid =>
  cases hsn : d.sender with
  | none => simp [parseEnvelope, specWellFormedDoc, hs, hc, hcid, hsn, exceptIsOk]
  | some sn =>
  cases hsu : sn.speakerUri with
  | none =>
      simp [parseEnvelope, specWellFormedDoc, hs, hc, hcid, hsn, hsu, exceptIsOk]
  | some su =>
  cases hev : d.events with
  | none =>
      simp [parseEnvelope, specWellFormedDoc, hs, hc, hcid, hsn, hsu, hev,
        exceptIsOk]
  | some evs =>
      have hpe := parseEvents_ok_iff evs
      cases hp : parseEvents evs with
      | error m =>
          rw [hp] at hpe
          simp only [exceptIsOk] at hpe
          simp [parseEnvelope, specWellFormedDoc, hs, hc, hcid, hsn, hsu, hev,
            hp, exceptIsOk, ← hpe]
      | ok pevs =>
          rw [hp] at hpe
          simp only [exceptIsOk] at hpe
          simp [parseEnvelope, specWellFormedDoc, hs, hc, hcid, hsn, hsu, hev,
            hp, exceptIsOk, ← hpe]

/-- C9: with a capabilities-only filter `F`, `search` returns exactly the
stored manifests that are `active` and whose capability set contains every
member of `F` — the superset match, with `active` applied as the default
status. -/
theorem search_capabilities_superset (store : List Manifest)
    (F : List String) (M : Manifest) :
    M ∈ search store (some (filtersOfCapabilities F)) ↔
      M ∈ store ∧ (∀ c ∈ F, c ∈ M.capabilities) ∧
        M.status = ManifestStatus.active := by
  by_cases hF : F = []
  · subst hF
    simp [search, filtersOfCapabilities, List.mem_filter, and_comm]
  · simp only [search, filtersOfCapabilities, hF, if_neg hF]
    simp [List.mem_filter, List.all_eq_true, and_comm, and_assoc, and_left_comm]

/-- Witness for C9 at the spec's Scenario 6: `M1` has capabilities
{translation, text}, `M2` has {text}; filtering by `["translation"]`
returns `M1` and not `M2`. -/
theorem search_capabilities_superset_witness :
    (⟨none, "s:m1", none, none, none, none, none, ["translation", "text"],
        ManifestStatus.active, none, none, []⟩ : Manifest) ∈
      search [⟨none, "s:m1", none, none, none, none, none,
        ["translation", "text"], ManifestStatus.active, none, none, []⟩,
        ⟨none, "s:m2", none, none, none, none, none, ["text"],
          ManifestStatus.active, none, none, []⟩]
        (some (filtersOfCapabilities ["translation"])) ∧
    ¬ (⟨none, "s:m2", none, none, none, none, none, ["text"],
        ManifestStatus.active, none, none, []⟩ : Manifest) ∈
      search [⟨none, "s:m1", none, none, none, none, none,
        ["translation", "text"], ManifestStatus.active, none, none, []⟩,
        ⟨none, "s:m2", none, none, none, none, none, ["text"],
          ManifestStatus.active, none, none, []⟩]
        (some (filtersOfCapabilities ["translation"])) := by
  constructor
  · exact (search_capabilities_superset _ ["translation"] _).mpr
      ⟨by decide, by decide, rfl⟩
  · intro hmem
    have := (search_capabilities_superset _ ["translation"] _).mp hmem
    have h2 := this.2.1 "translation" (by decide)
    revert h2
    decide

end Floor
